import Mathlib

set_option autoImplicit false

/-!
# Verification of the Vivian's Revenge dry-run trading pipeline

Shallow embedding of the python sources under `src/` (executor models, live
and mock executors, risk filter, momentum signal, OHLC normalizer and the
market-data scraper) together with theorems settling the specification
claims about them.

Modelling conventions:
* Python numbers (prices, backoff factors, means) are modelled as `ℚ`;
  all arithmetic performed by the code on these values is exact at the
  inputs the claims exercise, so `ℚ` is a faithful model.
* Wall-clock instants (`datetime.now`, `time.time`) are modelled as `ℚ`
  values supplied by the caller.
* Calls into external libraries (`json.loads` validity, `robotparser`'s
  `can_fetch`, `datetime.fromisoformat`, the HTTP session) are modelled as
  explicit function parameters: the code under verification never inspects
  their internals, only their results.
* Mutable object state is passed explicitly and returned updated.
-/

namespace VivianRevenge

/-! ## Order and execution models — `src/executor/models.py` -/

/-- Model of `OrderRequest` (`src/executor/models.py`). -/
structure OrderRequest where
  symbol : String
  side : String
  quantity : Int
  metadata : List (String × String)
deriving Repr, DecidableEq

/-- Model of `ExecutionReport` (`src/executor/models.py`); the `timestamp`
default factory `datetime.now(UTC)` is modelled by the caller supplying the
current instant. -/
structure ExecutionReport where
  order : OrderRequest
  status : String
  filled_quantity : Int
  average_price : ℚ
  timestamp : ℚ
deriving Repr, DecidableEq

/-! ## Live executor — `src/executor/live.py`

`LiveExecutor.execute` reads two environment variables and either raises
`LiveExecutionNotApproved` or `NotImplementedError`.  The environment is
modelled as two `Option String` values (`none` = variable unset) and
`json.loads` syntactic validity as a boolean predicate on strings. -/

/-- Possible outcomes of `LiveExecutor.execute`: a returned report, a raised
`LiveExecutionNotApproved`, or a raised `NotImplementedError`. -/
inductive LiveOutcome where
  | report (r : ExecutionReport)
  | liveExecutionNotApproved (msg : String)
  | notImplementedErr (msg : String)
deriving Repr, DecidableEq

/-- Model of `LiveExecutor.execute` (`src/executor/live.py` lines 21–31).
`execute_live_env` is `os.getenv("EXECUTE_LIVE")`, `approval_json_env` is
`os.getenv("APPROVAL_JSON")`; `if not approval_blob` is true for both an
unset variable and the empty string; `json_valid` models whether
`json.loads` succeeds on the blob. -/
def live_execute (execute_live_env approval_json_env : Option String)
    (json_valid : String → Bool) (_order : OrderRequest) (_price : ℚ) : LiveOutcome :=
  if execute_live_env ≠ some "true" then
    .liveExecutionNotApproved "Live execution requires EXECUTE_LIVE=true"
  else
    match approval_json_env with
    | none => .liveExecutionNotApproved "Live execution requires APPROVAL_JSON with human approval"
    | some blob =>
      if blob = "" then
        .liveExecutionNotApproved "Live execution requires APPROVAL_JSON with human approval"
      else if json_valid blob = false then
        .liveExecutionNotApproved "APPROVAL_JSON is not valid JSON"
      else
        .notImplementedErr "Live execution is disabled in this environment"

/-! ## Risk filter — `src/risk/filters.py`

`RiskFilter.validate` mutates only `self._daily_trade_count`; the state is
passed in and returned explicitly.  The order argument is a python dict;
only its `"quantity"` entry is read (`order.get("quantity", 0)` then
`int(...)`), so it is modelled as `Option ℚ` (`none` = key absent). -/

/-- Model of `RiskConfig` (`src/risk/filters.py`). -/
structure RiskConfig where
  max_position : Int
  max_notional : ℚ
  max_daily_trades : Int
deriving Repr, DecidableEq

/-- Reasons a `RiskViolation` is raised, one per `raise` site in
`RiskFilter.validate`. -/
inductive RiskViolation where
  | positionLimit
  | notionalLimit
  | dailyTradeLimit
deriving Repr, DecidableEq

/-- Python's `int(...)` on a numeric value truncates toward zero. -/
def pyInt (q : ℚ) : Int := if 0 ≤ q then ⌊q⌋ else ⌈q⌉

/-- Model of `RiskFilter.validate` (`src/risk/filters.py` lines 35–49): the
result is the raised violation (or `.ok`) paired with the trade counter
after the call. -/
def validate (cfg : RiskConfig) (daily_trade_count : Int) (order_quantity : Option ℚ)
    (current_position : Int) (price : ℚ) : Except RiskViolation Unit × Int :=
  let projected_position : Int := current_position + pyInt (order_quantity.getD 0)
  let projected_notional : ℚ := |(projected_position : ℚ) * price|
  if |projected_position| > cfg.max_position then
    (.error .positionLimit, daily_trade_count)
  else if projected_notional > cfg.max_notional then
    (.error .notionalLimit, daily_trade_count)
  else if daily_trade_count ≥ cfg.max_daily_trades then
    (.error .dailyTradeLimit, daily_trade_count)
  else
    (.ok (), daily_trade_count + 1)

/-! ## Momentum signal — `src/signals/momentum.py` -/

/-- Model of `SignalResult` (`src/signals/momentum.py`). -/
structure SignalResult where
  signal : Int
  short_ma : ℚ
  long_ma : ℚ
deriving Repr, DecidableEq

/-- The `ValueError`s raised by `momentum_signal` / `_moving_average`,
one per `raise` site. -/
inductive SignalErr where
  | invalidConfiguration
  | insufficientData
  | emptySeries
deriving Repr, DecidableEq

/-- Python list slicing `xs[i:]` (used as `prices[-short_window:]`):
a negative start counts from the end, clamped at `0`; a non-negative
start is clamped at `len(xs)`. -/
def py_slice_from (i : Int) (xs : List ℚ) : List ℚ :=
  if i < 0 then xs.drop (max ((xs.length : Int) + i) 0).toNat
  else xs.drop (min i (xs.length : Int)).toNat

/-- Model of `_moving_average` (`src/signals/momentum.py` lines 17–20);
`statistics.mean` computes the exact arithmetic mean. -/
def moving_average (series : List ℚ) : Except SignalErr ℚ :=
  if series.isEmpty then .error .emptySeries
  else .ok (series.sum / (series.length : ℚ))

/-- Model of `momentum_signal` (`src/signals/momentum.py` lines 23–41). -/
def momentum_signal (closing_prices : List ℚ) (short_window long_window : Int) :
    Except SignalErr SignalResult :=
  if long_window ≤ short_window then .error .invalidConfiguration
  else if (closing_prices.length : Int) < long_window then .error .insufficientData
  else
    match moving_average (py_slice_from (-short_window) closing_prices),
          moving_average (py_slice_from (-long_window) closing_prices) with
    | .error e, _ => .error e
    | .ok _, .error e => .error e
    | .ok short_ma, .ok long_ma =>
      .ok { signal := if short_ma > long_ma then 1 else if short_ma < long_ma then -1 else 0
            short_ma := short_ma
            long_ma := long_ma }

/-! ## Mock executor — `src/executor/mock.py`

The audit log file is modelled as the list of its lines; each line is the
JSON object serialized by `_write_audit_log`, modelled structurally
(`json.dumps` is injective on these payloads). -/

/-- One line of the audit log: the payload dict built in
`MockExecutor._write_audit_log` (`src/executor/mock.py` lines 33–41). -/
structure AuditEntry where
  symbol : String
  side : String
  quantity : Int
  average_price : ℚ
  status : String
  timestamp : ℚ
  metadata : List (String × String)
deriving Repr, DecidableEq

/-- Model of `MockExecutor._write_audit_log` (`src/executor/mock.py`
lines 32–43): opens the file in append mode and writes one line. -/
def write_audit_log (report : ExecutionReport) (log : List AuditEntry) : List AuditEntry :=
  log ++ [{ symbol := report.order.symbol
            side := report.order.side
            quantity := report.filled_quantity
            average_price := report.average_price
            status := report.status
            timestamp := report.timestamp
            metadata := report.order.metadata }]

/-- Model of `MockExecutor.execute` (`src/executor/mock.py` lines 22–30);
`now` is the instant produced by the report's timestamp default factory. -/
def mock_execute (order : OrderRequest) (price : ℚ) (now : ℚ) (log : List AuditEntry) :
    ExecutionReport × List AuditEntry :=
  let report : ExecutionReport :=
    { order := order, status := "filled", filled_quantity := order.quantity
      average_price := price, timestamp := now }
  (report, write_audit_log report log)

/-! ## OHLC normalizer — `src/normalizers/price.py`

`normalize_ohlc_rows` iterates over the raw rows, parsing
`str(row["timestamp"]).replace("Z", "+00:00")` with
`datetime.fromisoformat` and coercing the five numeric fields with
`float(...)`; the first failing row aborts the whole batch with a
`ValueError` carrying that row, and on success the bars are sorted by
timestamp with `list.sort` (a stable sort).  `fromisoformat` is an external
library function and is modelled as a parameter `parse` into an arbitrary
linearly ordered timestamp type (aware datetimes compare by instant);
`float(...)` is modelled by classifying each raw value by its outcome. -/

/-- A python value appearing in a raw OHLC row, classified by how
`float(...)` treats it: `num q` stands for every value that `float`
converts to `q` (ints, floats, numeric strings), `bad` for every value on
which `float` raises `ValueError` or `TypeError`. -/
inductive PyVal where
  | num (q : ℚ)
  | bad
deriving Repr, DecidableEq

/-- Model of python `float(...)` applied to a row value. -/
def pyFloat : PyVal → Option ℚ
  | .num q => some q
  | .bad => none

/-- A raw OHLC row; a `none` field models a missing dictionary key
(`KeyError`).  The timestamp field holds `str(row["timestamp"])`. -/
structure RawRow where
  timestamp : Option String
  open_v : Option PyVal
  high_v : Option PyVal
  low_v : Option PyVal
  close_v : Option PyVal
  volume_v : Option PyVal
deriving Repr, DecidableEq

/-- Python `str.replace("Z", "+00:00")`: every occurrence of `Z` is
replaced. -/
def replaceZ (s : String) : String :=
  ⟨s.data.flatMap fun ch => if ch = 'Z' then "+00:00".data else [ch]⟩

/-- A normalized bar over an abstract timestamp type `τ`. -/
structure NormBar (τ : Type) where
  timestamp : τ
  open_f : ℚ
  high_f : ℚ
  low_f : ℚ
  close_f : ℚ
  volume_f : ℚ
deriving Repr, DecidableEq

/-- One loop iteration of `normalize_ohlc_rows` (`src/normalizers/price.py`
lines 18–31): parse the Z-replaced timestamp through the `fromisoformat`
model `parse` and coerce the five numeric fields; `none` means the
iteration raises (`KeyError`, `ValueError` or `TypeError`). -/
def normalize_row {τ : Type} (parse : String → Option τ) (row : RawRow) :
    Option (NormBar τ) := do
  let ts ← row.timestamp
  let t ← parse (replaceZ ts)
  let o ← row.open_v.bind pyFloat
  let h ← row.high_v.bind pyFloat
  let lo ← row.low_v.bind pyFloat
  let c ← row.close_v.bind pyFloat
  let v ← row.volume_v.bind pyFloat
  return ⟨t, o, h, lo, c, v⟩

/-- The accumulation loop of `normalize_ohlc_rows`: rows are processed in
order and the first failing row aborts the whole batch, carrying that
row. -/
def normalize_loop {τ : Type} (parse : String → Option τ) :
    List RawRow → Except RawRow (List (NormBar τ))
  | [] => .ok []
  | row :: rest =>
    match normalize_row parse row with
    | none => .error row
    | some bar => (normalize_loop parse rest).map (bar :: ·)

/-- Timestamp comparison used as the sort key (`key=lambda item:
item["timestamp"]`). -/
def bar_le {τ : Type} [LinearOrder τ] (a b : NormBar τ) : Bool :=
  a.timestamp ≤ b.timestamp

/-- Model of `normalize_ohlc_rows` (`src/normalizers/price.py` lines 9–33):
normalize every row, then stably sort ascending by timestamp
(`list.sort` is a stable sort, as is `List.mergeSort`). -/
def normalize_ohlc_rows {τ : Type} [LinearOrder τ] (parse : String → Option τ)
    (rows : List RawRow) : Except RawRow (List (NormBar τ)) :=
  (normalize_loop parse rows).map (fun bars => bars.mergeSort bar_le)

/-! ## Market data scraper — `src/scrapers/market_data.py`

The file contains duplicated definitions left over from its history; in
python the later definition wins, so the embedding follows the second
`_request_with_retries` (line 89, taking a full URL) and the second
`_is_allowed` (line 131).  Inside `get_intraday_prices` both halves of the
duplicated body run in sequence: the sanitized cache key of line 59 is
immediately overwritten by the unsanitized f-string of line 60, and the
stray data request of line 72 (passing the bare endpoint path as the URL)
runs before the real request of line 80.

External collaborators are modelled as parameters: the robots policy is
`can_fetch : String → Bool` (the parsed `robotparser` answer for the
configured user agent, whether injected or downloaded), and the HTTP
session's data responses are `respond : Nat → Except String String`
(the outcome of the n-th `session.get` for data in this call; `.error`
is a raised `requests.RequestException` carrying its message).  The
on-disk cache directory is the list of its files with payload and
modification time; `time.time` and `time.monotonic` readings are supplied
by the caller. -/

/-- Model of `ScraperConfig` (`src/scrapers/market_data.py` lines 22–32);
`cache_dir` is modelled by the cache state itself and `timeout_seconds`
is only passed through to the session, so neither appears. -/
structure ScraperConfig where
  base_url : String
  endpoint : String
  cache_ttl_seconds : ℚ
  rate_limit_seconds : ℚ
  max_retries : Nat
  backoff_factor : ℚ
  user_agent : String
deriving Repr, DecidableEq

/-- Python `s.lstrip(c)` for a single-character set. -/
def pyLstripChar (c : Char) (s : String) : String := ⟨s.data.dropWhile (· = c)⟩

/-- Python `s.rstrip(c)` for a single-character set. -/
def pyRstripChar (c : Char) (s : String) : String :=
  ⟨(s.data.reverse.dropWhile (· = c)).reverse⟩

/-- Python `s.strip(c)` for a single-character set. -/
def pyStripChar (c : Char) (s : String) : String := pyRstripChar c (pyLstripChar c s)

/-- Whether a string ends with `/` (python `s.endswith("/")`). -/
def ends_with_slash (s : String) : Bool := s.data.getLast? = some '/'

/-- The character class `[<>:"/\\|?*]` of `_sanitize_for_filename`. -/
def is_windows_illegal (ch : Char) : Bool :=
  ch = '<' || ch = '>' || ch = ':' || ch = '"' || ch = '/' || ch = '\\' ||
    ch = '|' || ch = '?' || ch = '*'

/-- The character class `[\x00-\x1f]` of `_sanitize_for_filename`. -/
def is_control_char (ch : Char) : Bool := ch.toNat ≤ 0x1f

/-- ASCII whitespace matched by `\s` (the claims exercise no non-ASCII
whitespace). -/
def py_space (ch : Char) : Bool :=
  ch = ' ' || ch = '\t' || ch = '\n' || ch = '\r' || ch = '\x0b' || ch = '\x0c'

/-- First substitution of `_sanitize_for_filename`:
`re.sub(r'[<>:"/\\|?*]', "_", value)`. -/
def sanitize_char1 (ch : Char) : Char := if is_windows_illegal ch then '_' else ch

/-- Second substitution: `re.sub(r"[\x00-\x1f]", "_", ...)`. -/
def sanitize_char2 (ch : Char) : Char := if is_control_char ch then '_' else ch

/-- Third substitution, `re.sub(r"\s+", "_", ...)`: each maximal whitespace
run becomes a single `_`.  The flag records whether the previous character
was part of a run. -/
def collapse_ws : Bool → List Char → List Char
  | _, [] => []
  | prev, ch :: rest =>
    if py_space ch then
      if prev then collapse_ws true rest else '_' :: collapse_ws true rest
    else ch :: collapse_ws false rest

/-- Model of `_sanitize_for_filename` (`src/scrapers/market_data.py`
lines 179–186). -/
def sanitize_for_filename (value : String) : String :=
  ⟨collapse_ws false ((value.data.map sanitize_char1).map sanitize_char2)⟩

/-- Model of `_make_cache_key` (lines 175–177): sanitize each part, join
with `_`, append `.json`.  Computed at line 59 and then discarded. -/
def make_cache_key (parts : List String) : String :=
  String.intercalate "_" (parts.map sanitize_for_filename) ++ ".json"

/-- The cache key actually used (line 60): the raw unsanitized f-string. -/
def used_cache_key (symbol start_ end_ : String) : String :=
  symbol ++ "_" ++ start_ ++ "_" ++ end_ ++ ".json"

/-- Model of `_normalize_base_url` (lines 142–146). -/
def normalize_base_url (base_url : String) : String :=
  if ends_with_slash base_url then base_url else base_url ++ "/"

/-- Model of `_format_robots_path` (lines 148–156). -/
def format_robots_path (endpoint_path : String) : String :=
  let normalized := pyLstripChar '/' endpoint_path
  if normalized = "" then "/"
  else
    let robots_path := "/" ++ normalized
    if ends_with_slash robots_path then robots_path else robots_path ++ "/"

/-- A character allowed inside a URL scheme after the first letter. -/
def is_scheme_char (ch : Char) : Bool :=
  ch.isAlphanum || ch = '+' || ch = '-' || ch = '.'

/-- Drop a leading `scheme:` as `urllib.parse.urlsplit` recognizes it. -/
def drop_scheme (cs : List Char) : List Char :=
  let pre := cs.takeWhile is_scheme_char
  if 0 < pre.length ∧ (cs.drop pre.length).head? = some ':' ∧
      pre.head?.elim false Char.isAlpha = true then
    cs.drop (pre.length + 1)
  else cs

/-- Drop a leading `//netloc` as `urlsplit` does. -/
def drop_netloc : List Char → List Char
  | '/' :: '/' :: rest => rest.dropWhile (fun ch => !(ch = '/' || ch = '?' || ch = '#'))
  | cs => cs

/-- Model of `urllib.parse.urlsplit(url).path`. -/
def urlsplit_path (url : String) : String :=
  ⟨(drop_netloc (drop_scheme url.data)).takeWhile (fun ch => !(ch = '?' || ch = '#'))⟩

/-- Model of `urllib.parse.urlsplit(url).netloc`. -/
def urlsplit_netloc (url : String) : String :=
  match drop_scheme url.data with
  | '/' :: '/' :: rest => ⟨rest.takeWhile (fun ch => !(ch = '/' || ch = '?' || ch = '#'))⟩
  | _ => ""

/-- Model of `urlsplit(url).scheme` (case preserved; unused for claims). -/
def urlsplit_scheme (url : String) : String :=
  let pre := url.data.takeWhile is_scheme_char
  if 0 < pre.length ∧ (url.data.drop pre.length).head? = some ':' ∧
      pre.head?.elim false Char.isAlpha = true then ⟨pre⟩
  else ""

/-- Model of `_extract_origin` (lines 158–161). -/
def extract_origin (url : String) : String :=
  urlsplit_scheme url ++ "://" ++ urlsplit_netloc url ++ "/"

/-- Model of `urljoin(base, rel)` for the shapes the scraper produces: the
base ends with `/` and the relative part carries no scheme, netloc, leading
slash or dot segments, so the join is concatenation (an empty relative part
returns the base). -/
def urljoin_model (base rel : String) : String :=
  if rel = "" then base else base ++ rel

/-- Model of the effective `_is_allowed` (lines 131–140): `can_fetch` is
the robots policy's verdict for the configured user agent. -/
def is_allowed (can_fetch : String → Bool) (url_or_path : String) : Bool :=
  let path := urlsplit_path url_or_path
  let path := if path = "" then url_or_path else path
  let primary_allowed := can_fetch path
  if ends_with_slash path then primary_allowed
  else primary_allowed && can_fetch (pyRstripChar '/' path ++ "/")

/-- Result of one `_request_with_retries` run: the decoded payload, or the
`RuntimeError` raised after exhausting retries, carrying the last
underlying exception message. -/
inductive ReqOutcome where
  | success (payload : String)
  | failure (lastErr : String)
deriving Repr, DecidableEq

/-- The `while True` loop of the effective `_request_with_retries`
(lines 89–109).  `idx` numbers the data GETs issued so far in this call,
`retries` is the loop counter, and `fuel` bounds the recursion (the loop
makes at most `max_retries + 1` attempts, so `max_retries + 1 - retries`
fuel is never exhausted).  Returns the outcome, the next request index and
the backoff sleeps performed, in order. -/
def request_attempt_loop (respond : Nat → Except String String) (max_retries : Nat)
    (backoff_factor : ℚ) : Nat → Nat → Nat → ReqOutcome × Nat × List ℚ
  | _, _, 0 => (.failure "", 0, [])
  | idx, retries, fuel + 1 =>
    match respond idx with
    | .ok payload => (.success payload, idx + 1, [])
    | .error exc =>
      let retries' := retries + 1
      if retries' > max_retries then (.failure exc, idx + 1, [])
      else
        let sleep_for := backoff_factor * 2 ^ (retries' - 1)
        let (r, i, sleeps) :=
          request_attempt_loop respond max_retries backoff_factor (idx + 1) retries' fuel
        (r, i, sleep_for :: sleeps)

/-- Model of `_request_with_retries` (lines 89–109), entered with the loop
counter at `0`. -/
def request_with_retries (respond : Nat → Except String String) (max_retries : Nat)
    (backoff_factor : ℚ) (idx : Nat) : ReqOutcome × Nat × List ℚ :=
  request_attempt_loop respond max_retries backoff_factor idx 0 (max_retries + 1)

/-- The cache directory: file name, payload, modification time. -/
abbrev Cache := List (String × String × ℚ)

/-- Model of `_read_cache` (lines 188–197): a missing file or an entry older
than the TTL reads as absent. -/
def read_cache (ttl : ℚ) (cache : Cache) (now : ℚ) (cache_key : String) : Option String :=
  match cache.find? (fun e => e.1 = cache_key) with
  | none => none
  | some (_, payload, mtime) => if now - mtime > ttl then none else some payload

/-- Model of `_write_cache` (lines 199–202): overwrite the file for the
key. -/
def write_cache (cache : Cache) (now : ℚ) (cache_key : String) (payload : String) : Cache :=
  (cache_key, payload, now) :: cache.filter (fun e => !(e.1 = cache_key))

/-- The scraper's instance-local mutable state: the cache directory,
whether `self._robot_parser` is set, and `self._last_request_ts`. -/
structure ScraperState where
  cache : Cache
  robots_loaded : Bool
  last_request_ts : ℚ
deriving Repr, DecidableEq

/-- The environment of one `get_intraday_prices` call. -/
structure ScraperEnv where
  can_fetch : String → Bool
  respond : Nat → Except String String
  robots_ok : Bool

/-- The ways `get_intraday_prices` can finish: the returned payload, a
`PermissionError`, the `RuntimeError` after exhausted retries (wrapping the
last exception), or the `RuntimeError` for a failed robots download. -/
inductive FetchResult where
  | payload (body : String)
  | permissionError (msg : String)
  | fetchFailure (msg : String) (lastErr : String)
  | robotsError (msg : String)
deriving Repr, DecidableEq

/-- Everything observable about one `get_intraday_prices` call: result, the
state left behind, the data GETs attempted (by URL, in order), the robots
GETs, the backoff sleeps and the rate-limit wait. -/
structure FetchOutcome where
  result : FetchResult
  state : ScraperState
  data_requests : List String
  robots_requests : List String
  sleeps : List ℚ
  rate_limit_wait : ℚ
deriving Repr, DecidableEq

/-- Model of `get_intraday_prices` (lines 51–82) together with the helpers
it calls (`_enforce_rate_limit` lines 163–170, `_ensure_robot_parser` lines
111–126).  `wall_now` is the `time.time` reading, `mono_now` the
`time.monotonic` reading. -/
def get_intraday_prices (cfg : ScraperConfig) (env : ScraperEnv) (st : ScraperState)
    (wall_now mono_now : ℚ) (symbol start_ end_ : String) : FetchOutcome :=
  -- line 59 computes the sanitized key, line 60 immediately overwrites it
  let _cache_key_sanitized := make_cache_key [symbol, start_, end_]
  let cache_key := used_cache_key symbol start_ end_
  match read_cache cfg.cache_ttl_seconds st.cache wall_now cache_key with
  | some cached =>
    { result := .payload cached, state := st, data_requests := [],
      robots_requests := [], sleeps := [], rate_limit_wait := 0 }
  | none =>
    let elapsed := mono_now - st.last_request_ts
    let wait := if elapsed < cfg.rate_limit_seconds then cfg.rate_limit_seconds - elapsed else 0
    let st := { st with last_request_ts := mono_now + wait }
    let robots_url := urljoin_model (extract_origin (normalize_base_url cfg.base_url))
      "robots.txt"
    let robots_reqs := if st.robots_loaded then [] else [robots_url]
    if st.robots_loaded = false ∧ env.robots_ok = false then
      { result := .robotsError "Unable to load robots.txt for scraping", state := st,
        data_requests := [], robots_requests := robots_reqs, sleeps := [],
        rate_limit_wait := wait }
    else
      let st := { st with robots_loaded := true }
      let endpoint_path := "/" ++ pyStripChar '/' cfg.endpoint ++ "/"
      if is_allowed env.can_fetch endpoint_path = false then
        { result := .permissionError ("Robots.txt disallows access to " ++ endpoint_path),
          state := st, data_requests := [], robots_requests := robots_reqs, sleeps := [],
          rate_limit_wait := wait }
      else
        -- stray data request of line 72, retained from file history; its
        -- result is overwritten at line 80
        let first := request_with_retries env.respond cfg.max_retries cfg.backoff_factor 0
        let reqs1 := List.replicate (first.2.1) endpoint_path
        match first.1 with
        | .failure exc =>
          { result := .fetchFailure "Failed to retrieve market data" exc, state := st,
            data_requests := reqs1, robots_requests := robots_reqs, sleeps := first.2.2,
            rate_limit_wait := wait }
        | .success _ =>
          let endpoint_path2 := pyLstripChar '/' cfg.endpoint
          let full_url := urljoin_model (normalize_base_url cfg.base_url) endpoint_path2
          let robots_path := format_robots_path endpoint_path2
          if is_allowed env.can_fetch robots_path = false then
            { result := .permissionError
                ("Robots.txt disallows access to " ++ endpoint_path2),
              state := st, data_requests := reqs1, robots_requests := robots_reqs,
              sleeps := first.2.2, rate_limit_wait := wait }
          else
            let second := request_with_retries env.respond cfg.max_retries
              cfg.backoff_factor first.2.1
            let reqs2 := List.replicate (second.2.1 - first.2.1) full_url
            match second.1 with
            | .failure exc =>
              { result := .fetchFailure "Failed to retrieve market data" exc, state := st,
                data_requests := reqs1 ++ reqs2, robots_requests := robots_reqs,
                sleeps := first.2.2 ++ second.2.2, rate_limit_wait := wait }
            | .success payload =>
              { result := .payload payload,
                state := { st with
                  cache := write_cache st.cache wall_now cache_key payload },
                data_requests := reqs1 ++ reqs2, robots_requests := robots_reqs,
                sleeps := first.2.2 ++ second.2.2, rate_limit_wait := wait }

/-! ## Derived and concrete definitions used by the theorems -/

/-- Equality of `Except` values is decidable when it is on both sides. -/
instance {ε α : Type} [DecidableEq ε] [DecidableEq α] : DecidableEq (Except ε α) := fun x y =>
  match x, y with
  | .error a, .error b =>
    if h : a = b then .isTrue (by rw [h])
    else .isFalse (by intro hc; cases hc; exact h rfl)
  | .ok a, .ok b =>
    if h : a = b then .isTrue (by rw [h])
    else .isFalse (by intro hc; cases hc; exact h rfl)
  | .error _, .ok _ => .isFalse (by intro hc; cases hc)
  | .ok _, .error _ => .isFalse (by intro hc; cases hc)

/-- The last `w` elements of a list (the specification's "last `w` prices"). -/
def last_prices (w : Nat) (xs : List ℚ) : List ℚ := xs.drop (xs.length - w)

/-- The arithmetic mean as the specification states it. -/
def arith_mean (xs : List ℚ) : ℚ := xs.sum / (xs.length : ℚ)

/-- A concrete timestamp parser for closed instances of the normalizer
theorems.  `datetime.fromisoformat` is a function, so it maps equal
timestamp strings to equal instants; any concrete function shares that
property. -/
def parse_len (s : String) : Option Nat := some s.length

/-- A well-formed raw row used in concrete instances. -/
def dup_row : RawRow :=
  { timestamp := some "2024-01-01T09:30:00Z", open_v := some (.num 1), high_v := some (.num 1)
    low_v := some (.num 1), close_v := some (.num 1), volume_v := some (.num 1) }

/-- The scraper configuration of the repository's own cache test
(`src/tests/test_scraper.py`, `test_scraper_uses_cache`). -/
def test_cfg : ScraperConfig :=
  { base_url := "https://example.com/api", endpoint := "intraday", cache_ttl_seconds := 300
    rate_limit_seconds := 1, max_retries := 3, backoff_factor := 1 / 2
    user_agent := "VivianRevengeBot/1.0" }

/-- An environment whose robots policy allows everything and whose session
answers every data GET with the same payload (the test's `DummySession`);
the robot parser is injected, so `robots_ok` is irrelevant. -/
def test_env : ScraperEnv :=
  { can_fetch := fun _ => true, respond := fun _ => .ok "payload", robots_ok := true }

/-- A fresh scraper whose robot parser was injected (the test passes
`allow_all_parser`). -/
def test_st : ScraperState := { cache := [], robots_loaded := true, last_request_ts := 0 }

/-- The first call of the cache test: a cache miss at time `0`. -/
def test_call1 : FetchOutcome := get_intraday_prices test_cfg test_env test_st 0 0 "SPY" "start" "end"

/-- The second, identical call, still at time `0` (age `0 ≤ ttl`). -/
def test_call2 : FetchOutcome :=
  get_intraday_prices test_cfg test_env test_call1.state 0 0 "SPY" "start" "end"

/-- A fetch whose `(symbol, start, end)` contain `:` characters, as every
ISO timestamp does. -/
def colon_call : FetchOutcome :=
  get_intraday_prices test_cfg test_env test_st 0 0
    "SPY" "2024-01-01T09:30:00" "2024-01-01T16:00:00"

/-! ## Supporting lemmas -/

/-- `int(...)` is the identity on integral values. -/
theorem pyInt_intCast (n : Int) : pyInt (n : ℚ) = n := by
  unfold pyInt
  rcases le_or_lt 0 (n : ℚ) with h | h
  · rw [if_pos h, Int.floor_intCast]
  · rw [if_neg (not_le.mpr h), Int.ceil_intCast]

/-- On a positive window `w`, the python slice `xs[-w:]` is exactly the last
`w` elements of `xs`. -/
theorem py_slice_from_neg (w : Int) (hw : 1 ≤ w) (xs : List ℚ) :
    py_slice_from (-w) xs = last_prices w.toNat xs := by
  unfold py_slice_from last_prices
  rw [if_pos (by omega)]
  congr 1
  rcases max_cases ((xs.length : Int) + -w) 0 with ⟨h1, h2⟩ | ⟨h1, h2⟩ <;> omega

/-- `_moving_average` on a nonempty series returns the arithmetic mean. -/
theorem moving_average_of_ne_nil (xs : List ℚ) (h : xs ≠ []) :
    moving_average xs = .ok (arith_mean xs) := by
  unfold moving_average arith_mean
  rw [if_neg (by simpa using h)]

/-- A positive window no larger than the list leaves a nonempty tail. -/
theorem last_prices_ne_nil (w : Nat) (xs : List ℚ) (hw : 1 ≤ w) (hxs : xs ≠ []) :
    last_prices w xs ≠ [] := by
  unfold last_prices
  intro h
  have hlen := congrArg List.length h
  simp [List.length_drop] at hlen
  have : xs.length ≠ 0 := fun hz => hxs (List.length_eq_zero.mp hz)
  omega

/-- `bar_le` is transitive. -/
theorem bar_le_trans {τ : Type} [LinearOrder τ] (a b c : NormBar τ)
    (h1 : bar_le a b = true) (h2 : bar_le b c = true) : bar_le a c = true := by
  simp only [bar_le, decide_eq_true_eq] at *
  exact le_trans h1 h2

/-- `bar_le` is total. -/
theorem bar_le_total {τ : Type} [LinearOrder τ] (a b : NormBar τ) :
    (bar_le a b || bar_le b a) = true := by
  simp only [bar_le, Bool.or_eq_true, decide_eq_true_eq]
  exact le_total a.timestamp b.timestamp

/-- When every row normalizes, the loop returns all the bars, in input
order. -/
theorem normalize_loop_ok_of_all {τ : Type} (parse : String → Option τ) (rows : List RawRow)
    (h : ∀ r ∈ rows, (normalize_row parse r).isSome) :
    normalize_loop parse rows = .ok (rows.filterMap (normalize_row parse)) := by
  induction rows with
  | nil => rfl
  | cons r rest ih =>
    rcases Option.isSome_iff_exists.mp (h r (by simp)) with ⟨b, hb⟩
    have ihr := ih (fun x hx => h x (by simp [hx]))
    simp [normalize_loop, hb, ihr, List.filterMap_cons, Except.map]

/-- Conversely, an `ok` result of the loop means every row normalized and
the output lists their bars in input order. -/
theorem normalize_loop_ok_inv {τ : Type} (parse : String → Option τ) (rows : List RawRow)
    (out : List (NormBar τ)) (h : normalize_loop parse rows = .ok out) :
    (∀ r ∈ rows, (normalize_row parse r).isSome) ∧
      out = rows.filterMap (normalize_row parse) := by
  induction rows generalizing out with
  | nil =>
    cases h
    simp
  | cons r rest ih =>
    cases hb : normalize_row parse r with
    | none => simp [normalize_loop, hb] at h
    | some b =>
      simp only [normalize_loop, hb] at h
      cases hrest : normalize_loop parse rest with
      | error e => rw [hrest] at h; simp [Except.map] at h
      | ok l =>
        rw [hrest] at h
        simp only [Except.map, Except.ok.injEq] at h
        obtain ⟨h1, h2⟩ := ih l hrest
        constructor
        · intro x hx
          rcases List.mem_cons.mp hx with rfl | hx'
          · simp [hb]
          · exact h1 x hx'
        · rw [← h, List.filterMap_cons, hb, h2]

/-- When a prefix normalizes and `row` fails, the loop aborts with `row`. -/
theorem normalize_loop_error {τ : Type} (parse : String → Option τ) (pre : List RawRow)
    (row : RawRow) (post : List RawRow)
    (hpre : ∀ r ∈ pre, (normalize_row parse r).isSome)
    (hrow : normalize_row parse row = none) :
    normalize_loop parse (pre ++ row :: post) = .error row := by
  induction pre with
  | nil => simp [normalize_loop, hrow]
  | cons p pre' ih =>
    rcases Option.isSome_iff_exists.mp (hpre p (by simp)) with ⟨b, hb⟩
    have ihr := ih (fun x hx => hpre x (by simp [hx]))
    simp [normalize_loop, hb, ihr, Except.map]

/-- `filterMap` keeps the length when every element maps to `some`. -/
theorem length_filterMap_of_all {α β : Type} (f : α → Option β) (l : List α)
    (h : ∀ a ∈ l, (f a).isSome) : (l.filterMap f).length = l.length := by
  induction l with
  | nil => rfl
  | cons a l ih =>
    rcases Option.isSome_iff_exists.mp (h a (by simp)) with ⟨b, hb⟩
    simp [List.filterMap_cons, hb, ih (fun x hx => h x (by simp [hx]))]

/-- Characters surviving `collapse_ws` are `_` or non-whitespace characters
of the input. -/
theorem mem_collapse_ws (ch : Char) : ∀ (prev : Bool) (cs : List Char),
    ch ∈ collapse_ws prev cs → ch = '_' ∨ (ch ∈ cs ∧ py_space ch = false) := by
  intro prev cs
  induction cs generalizing prev with
  | nil => intro h; simp [collapse_ws] at h
  | cons c rest ih =>
    intro h
    simp only [collapse_ws] at h
    by_cases hsp : py_space c
    · rw [if_pos hsp] at h
      cases prev with
      | true =>
        rcases ih true (by simpa using h) with h' | ⟨hm, hn⟩
        · exact .inl h'
        · exact .inr ⟨List.mem_cons_of_mem _ hm, hn⟩
      | false =>
        rcases List.mem_cons.mp (by simpa using h) with rfl | hm
        · exact .inl rfl
        · rcases ih true hm with h' | ⟨hm', hn⟩
          · exact .inl h'
          · exact .inr ⟨List.mem_cons_of_mem _ hm', hn⟩
    · rw [if_neg hsp] at h
      rcases List.mem_cons.mp h with rfl | hm
      · exact .inr ⟨List.mem_cons_self _ _, by simpa using hsp⟩
      · rcases ih false hm with h' | ⟨hm', hn⟩
        · exact .inl h'
        · exact .inr ⟨List.mem_cons_of_mem _ hm', hn⟩

/-- The two character substitutions leave neither an illegal nor a control
character. -/
theorem sanitize_char_flags (c : Char) :
    is_windows_illegal (sanitize_char2 (sanitize_char1 c)) = false ∧
    is_control_char (sanitize_char2 (sanitize_char1 c)) = false := by
  unfold sanitize_char1 sanitize_char2
  by_cases h1 : is_windows_illegal c
  · rw [if_pos h1]
    decide
  · by_cases h2 : is_control_char c
    · rw [if_neg h1, if_pos h2]
      decide
    · rw [if_neg h1, if_neg h2]
      exact ⟨by simpa using h1, by simpa using h2⟩

/-- `_sanitize_for_filename` meets the specification's safety property:
no illegal filename character, control character or whitespace survives. -/
theorem sanitize_for_filename_safe (s : String) (ch : Char)
    (h : ch ∈ (sanitize_for_filename s).data) :
    is_windows_illegal ch = false ∧ is_control_char ch = false ∧ py_space ch = false := by
  simp only [sanitize_for_filename] at h
  rcases mem_collapse_ws ch false _ h with rfl | ⟨hm, hn⟩
  · exact ⟨by decide, by decide, by decide⟩
  · rcases List.mem_map.mp hm with ⟨c1, hc1, rfl⟩
    rcases List.mem_map.mp hc1 with ⟨c0, _, rfl⟩
    obtain ⟨a, b⟩ := sanitize_char_flags c0
    exact ⟨a, b, hn⟩

/-- A fresh-enough cache entry makes `get_intraday_prices` return it with
no network activity and no state change. -/
theorem get_intraday_prices_cache_hit (cfg : ScraperConfig) (env : ScraperEnv)
    (st : ScraperState) (wall_now mono_now : ℚ) (symbol start_ end_ payload : String)
    (h : read_cache cfg.cache_ttl_seconds st.cache wall_now
      (used_cache_key symbol start_ end_) = some payload) :
    get_intraday_prices cfg env st wall_now mono_now symbol start_ end_ =
      { result := .payload payload, state := st, data_requests := [],
        robots_requests := [], sleeps := [], rate_limit_wait := 0 } := by
  simp only [get_intraday_prices, h]

/-- When the first permission check denies the endpoint path on a cache
miss, `get_intraday_prices` raises the `PermissionError` naming that path,
with no data request and no backoff sleep. -/
theorem get_intraday_prices_denied (cfg : ScraperConfig) (env : ScraperEnv)
    (st : ScraperState) (wall_now mono_now : ℚ) (symbol start_ end_ : String)
    (hmiss : read_cache cfg.cache_ttl_seconds st.cache wall_now
      (used_cache_key symbol start_ end_) = none)
    (hrobots : st.robots_loaded = true ∨ env.robots_ok = true)
    (hdeny : is_allowed env.can_fetch ("/" ++ pyStripChar '/' cfg.endpoint ++ "/") = false) :
    (get_intraday_prices cfg env st wall_now mono_now symbol start_ end_).result =
      .permissionError
        ("Robots.txt disallows access to " ++ ("/" ++ pyStripChar '/' cfg.endpoint ++ "/")) ∧
    (get_intraday_prices cfg env st wall_now mono_now symbol start_ end_).data_requests = [] ∧
    (get_intraday_prices cfg env st wall_now mono_now symbol start_ end_).sleeps = [] := by
  have hc : ¬(st.robots_loaded = false ∧ env.robots_ok = false) := by
    rcases hrobots with h | h <;> simp [h]
  simp only [get_intraday_prices, hmiss]
  rw [if_neg hc, if_pos hdeny]
  exact ⟨rfl, rfl, rfl⟩

/-- The retry loop when the attempt after `k` failures succeeds
(`retries + k` stays within the budget): `k` retries happen, with the
backoff sleeps of the code. -/
theorem request_attempt_loop_ok (respond : Nat → Except String String) (max_retries : Nat)
    (backoff : ℚ) (payload : String) :
    ∀ (k idx retries fuel : Nat), retries + k ≤ max_retries → k < fuel →
    (∀ i, i < k → ∃ e, respond (idx + i) = .error e) →
    respond (idx + k) = .ok payload →
    request_attempt_loop respond max_retries backoff idx retries fuel =
      (.success payload, idx + k + 1,
        (List.range k).map (fun i => backoff * 2 ^ (retries + i))) := by
  intro k
  induction k with
  | zero =>
    intro idx retries fuel _ hf hfail hok
    obtain ⟨f, rfl⟩ : ∃ f, fuel = f + 1 := ⟨fuel - 1, by omega⟩
    have hok' : respond idx = .ok payload := hok
    simp only [request_attempt_loop, hok']
    simp
  | succ k ih =>
    intro idx retries fuel hk hf hfail hok
    obtain ⟨f, rfl⟩ : ∃ f, fuel = f + 1 := ⟨fuel - 1, by omega⟩
    obtain ⟨e, he⟩ := hfail 0 (by omega)
    have he' : respond idx = .error e := he
    simp only [request_attempt_loop, he']
    rw [if_neg (by omega : ¬ (retries + 1 > max_retries))]
    have ihr := ih (idx + 1) (retries + 1) f (by omega) (by omega)
      (fun i hi => by
        obtain ⟨e', he''⟩ := hfail (i + 1) (by omega)
        exact ⟨e', by rw [show idx + 1 + i = idx + (i + 1) from by omega]; exact he''⟩)
      (by rw [show idx + 1 + k = idx + (k + 1) from by omega]; exact hok)
    rw [ihr]
    have hrange : (List.range (k + 1)).map (fun i => backoff * 2 ^ (retries + i)) =
        backoff * 2 ^ retries ::
          (List.range k).map (fun i => backoff * 2 ^ (retries + 1 + i)) := by
      rw [List.range_succ_eq_map, List.map_cons, List.map_map]
      refine congrArg₂ _ (by rw [Nat.add_zero]) ?_
      refine List.map_congr_left fun i _ => ?_
      have : retries + (i + 1) = retries + 1 + i := by omega
      simp [Function.comp, this]
    rw [hrange]
    have : idx + 1 + k + 1 = idx + (k + 1) + 1 := by omega
    simp [this, Nat.add_sub_cancel]

/-- The retry loop when every attempt up to the budget fails: all
`max_retries` retries happen with their backoff sleeps and the final
failure carries the last underlying error. -/
theorem request_attempt_loop_exhaust (respond : Nat → Except String String)
    (max_retries : Nat) (backoff : ℚ) (e_last : String) :
    ∀ (d idx retries fuel : Nat), retries + d = max_retries → d < fuel →
    (∀ i, i < d → ∃ e, respond (idx + i) = .error e) →
    respond (idx + d) = .error e_last →
    request_attempt_loop respond max_retries backoff idx retries fuel =
      (.failure e_last, idx + d + 1,
        (List.range d).map (fun i => backoff * 2 ^ (retries + i))) := by
  intro d
  induction d with
  | zero =>
    intro idx retries fuel hd hf hfail hlast
    obtain ⟨f, rfl⟩ : ∃ f, fuel = f + 1 := ⟨fuel - 1, by omega⟩
    have hlast' : respond idx = .error e_last := hlast
    simp only [request_attempt_loop, hlast']
    rw [if_pos (by omega : retries + 1 > max_retries)]
    simp
  | succ d ih =>
    intro idx retries fuel hd hf hfail hlast
    obtain ⟨f, rfl⟩ : ∃ f, fuel = f + 1 := ⟨fuel - 1, by omega⟩
    obtain ⟨e, he⟩ := hfail 0 (by omega)
    have he' : respond idx = .error e := he
    simp only [request_attempt_loop, he']
    rw [if_neg (by omega : ¬ (retries + 1 > max_retries))]
    have ihr := ih (idx + 1) (retries + 1) f (by omega) (by omega)
      (fun i hi => by
        obtain ⟨e', he''⟩ := hfail (i + 1) (by omega)
        exact ⟨e', by rw [show idx + 1 + i = idx + (i + 1) from by omega]; exact he''⟩)
      (by rw [show idx + 1 + d = idx + (d + 1) from by omega]; exact hlast)
    rw [ihr]
    have hrange : (List.range (d + 1)).map (fun i => backoff * 2 ^ (retries + i)) =
        backoff * 2 ^ retries ::
          (List.range d).map (fun i => backoff * 2 ^ (retries + 1 + i)) := by
      rw [List.range_succ_eq_map, List.map_cons, List.map_map]
      refine congrArg₂ _ (by rw [Nat.add_zero]) ?_
      refine List.map_congr_left fun i _ => ?_
      have : retries + (i + 1) = retries + 1 + i := by omega
      simp [Function.comp, this]
    rw [hrange]
    have : idx + 1 + d + 1 = idx + (d + 1) + 1 := by omega
    simp [this, Nat.add_sub_cancel]

/-! ## Claim theorems -/

/-- C1: for every order, price and environment state, `LiveExecutor.execute`
never returns an `ExecutionReport`: it raises a not-approved error when
`EXECUTE_LIVE` is not the literal string `"true"`; otherwise it raises a
not-approved error when the approval payload is absent (or empty) or not
syntactically valid JSON; otherwise it raises `NotImplementedError`.  The
checks happen in exactly that order, so no code path can place a real
order. -/
theorem live_execute_always_blocks (ev aj : Option String) (jv : String → Bool)
    (order : OrderRequest) (price : ℚ) :
    (∀ r : ExecutionReport, live_execute ev aj jv order price ≠ .report r) ∧
    (ev ≠ some "true" →
      live_execute ev aj jv order price =
        .liveExecutionNotApproved "Live execution requires EXECUTE_LIVE=true") ∧
    (ev = some "true" → (aj = none ∨ aj = some "" ∨ ∃ b, aj = some b ∧ jv b = false) →
      ∃ msg, live_execute ev aj jv order price = .liveExecutionNotApproved msg) ∧
    (∀ b, ev = some "true" → aj = some b → b ≠ "" → jv b = true →
      live_execute ev aj jv order price =
        .notImplementedErr "Live execution is disabled in this environment") := by
  refine ⟨?_, ?_, ?_, ?_⟩
  · intro r
    rcases aj with _ | blob <;> simp only [live_execute] <;> split_ifs <;> simp
  · intro h
    unfold live_execute
    rw [if_pos h]
  · rintro rfl hcase
    rcases hcase with rfl | rfl | ⟨b, rfl, hb⟩
    · exact ⟨"Live execution requires APPROVAL_JSON with human approval", by simp [live_execute]⟩
    · exact ⟨"Live execution requires APPROVAL_JSON with human approval", by simp [live_execute]⟩
    · rcases eq_or_ne b "" with rfl | hne
      · exact ⟨"Live execution requires APPROVAL_JSON with human approval",
          by simp [live_execute]⟩
      · exact ⟨"APPROVAL_JSON is not valid JSON", by simp [live_execute, hne, hb]⟩
  · rintro b rfl rfl hne hjv
    simp [live_execute, hne, hjv]

/-- Witness for C1 at the concrete environment with both variables unset. -/
theorem live_execute_always_blocks_witness :
    live_execute none none (fun _ => true) ⟨"SPY", "buy", 1, []⟩ 10 =
      .liveExecutionNotApproved "Live execution requires EXECUTE_LIVE=true" :=
  (live_execute_always_blocks none none (fun _ => true) ⟨"SPY", "buy", 1, []⟩ 10).2.1
    (by simp)

/-- C5: `RiskFilter.validate` computes the projected position as the current
position plus the order quantity, then checks the position limit, the
notional limit and the daily trade count in that fixed order with the first
failure short-circuiting; a failing call leaves the trade counter unchanged
and a fully passing call increments it by exactly one. -/
theorem validate_check_order (cfg : RiskConfig) (count qty pos : Int) (price : ℚ) :
    (|pos + qty| > cfg.max_position →
      validate cfg count (some (qty : ℚ)) pos price = (.error .positionLimit, count)) ∧
    (|pos + qty| ≤ cfg.max_position → |((pos + qty : Int) : ℚ) * price| > cfg.max_notional →
      validate cfg count (some (qty : ℚ)) pos price = (.error .notionalLimit, count)) ∧
    (|pos + qty| ≤ cfg.max_position → |((pos + qty : Int) : ℚ) * price| ≤ cfg.max_notional →
      count ≥ cfg.max_daily_trades →
      validate cfg count (some (qty : ℚ)) pos price = (.error .dailyTradeLimit, count)) ∧
    (|pos + qty| ≤ cfg.max_position → |((pos + qty : Int) : ℚ) * price| ≤ cfg.max_notional →
      count < cfg.max_daily_trades →
      validate cfg count (some (qty : ℚ)) pos price = (.ok (), count + 1)) ∧
    (∀ e c, validate cfg count (some (qty : ℚ)) pos price = (.error e, c) → c = count) := by
  simp only [validate, Option.getD_some, pyInt_intCast]
  refine ⟨?_, ?_, ?_, ?_, ?_⟩
  · intro h1
    rw [if_pos h1]
  · intro h1 h2
    rw [if_neg (not_lt.mpr h1), if_pos h2]
  · intro h1 h2 h3
    rw [if_neg (not_lt.mpr h1), if_neg (not_lt.mpr h2), if_pos h3]
  · intro h1 h2 h3
    rw [if_neg (not_lt.mpr h1), if_neg (not_lt.mpr h2), if_neg (not_le.mpr h3)]
  · intro e c h
    split_ifs at h <;> simp_all

/-- Witness for C5 at the spec's own example: `max_position=5`,
`max_notional=1000`, `max_daily_trades=1`, `quantity=10`, position `0`,
price `10` fails the position check and leaves the counter at `0`. -/
theorem validate_check_order_witness :
    validate ⟨5, 1000, 1⟩ 0 (some ((10 : Int) : ℚ)) 0 10 = (.error .positionLimit, 0) :=
  (validate_check_order ⟨5, 1000, 1⟩ 0 10 0 10).1 (by decide)

/-- C10: when the order mapping has no `"quantity"` key the quantity
defaults to `0`, so the projected position equals the current position, and
a call that passes all three checks still increments the daily trade
counter — a quantity-less order consumes a daily-trade slot. -/
theorem validate_missing_quantity (cfg : RiskConfig) (count pos : Int) (price : ℚ) :
    validate cfg count none pos price = validate cfg count (some ((0 : Int) : ℚ)) pos price ∧
    (|pos| ≤ cfg.max_position → |(pos : ℚ) * price| ≤ cfg.max_notional →
      count < cfg.max_daily_trades →
      validate cfg count none pos price = (.ok (), count + 1)) := by
  constructor
  · simp [validate]
  · intro h1 h2 h3
    have h0 : pyInt ((0 : Int) : ℚ) = 0 := pyInt_intCast 0
    simp only [Int.cast_zero] at h0
    simp only [validate, Option.getD_none, h0, add_zero]
    rw [if_neg (not_lt.mpr h1), if_neg (not_lt.mpr h2), if_neg (not_le.mpr h3)]

/-- Witness for C10: a quantity-less order with all checks passing bumps
the counter from `0` to `1`. -/
theorem validate_missing_quantity_witness :
    validate ⟨5, 1000, 2⟩ 0 none 0 10 = (.ok (), 1) :=
  (validate_missing_quantity ⟨5, 1000, 2⟩ 0 0 10).2 (by decide) (by norm_num) (by decide)

/-- On valid positive windows and enough data, `momentum_signal` returns the
means of the two trailing windows and the sign of their comparison. -/
theorem momentum_signal_ok (prices : List ℚ) (s l : Int) (hs : 1 ≤ s) (hsl : s < l)
    (hlen : l ≤ (prices.length : Int)) :
    momentum_signal prices s l = .ok
      { signal :=
          if arith_mean (last_prices s.toNat prices) > arith_mean (last_prices l.toNat prices)
          then 1
          else if arith_mean (last_prices s.toNat prices) <
              arith_mean (last_prices l.toNat prices)
          then -1 else 0
        short_ma := arith_mean (last_prices s.toNat prices)
        long_ma := arith_mean (last_prices l.toNat prices) } := by
  have hxs : prices ≠ [] := by
    intro h
    subst h
    simp at hlen
    omega
  unfold momentum_signal
  rw [if_neg (not_le.mpr hsl), if_neg (not_lt.mpr hlen)]
  rw [py_slice_from_neg s hs prices, py_slice_from_neg l (by omega) prices]
  rw [moving_average_of_ne_nil _ (last_prices_ne_nil _ _ (by omega) hxs),
    moving_average_of_ne_nil _ (last_prices_ne_nil _ _ (by omega) hxs)]

/-- C7: `momentum_signal` fails with the invalid-configuration error when
`short_window >= long_window`, fails with the insufficient-data error when
the series is shorter than `long_window`, and otherwise (for positive
windows) returns the arithmetic means of the last `short_window` and last
`long_window` prices with the sign of their comparison as the signal; on
`[1,2,3,4,5]` with windows `2` and `4` it returns signal `1`, short mean
`9/2` and long mean `7/2`. -/
theorem momentum_signal_spec (prices : List ℚ) (s l : Int) :
    (l ≤ s → momentum_signal prices s l = .error .invalidConfiguration) ∧
    (s < l → (prices.length : Int) < l →
      momentum_signal prices s l = .error .insufficientData) ∧
    (1 ≤ s → s < l → l ≤ (prices.length : Int) →
      momentum_signal prices s l = .ok
        { signal :=
            if arith_mean (last_prices s.toNat prices) > arith_mean (last_prices l.toNat prices)
            then 1
            else if arith_mean (last_prices s.toNat prices) <
                arith_mean (last_prices l.toNat prices)
            then -1 else 0
          short_ma := arith_mean (last_prices s.toNat prices)
          long_ma := arith_mean (last_prices l.toNat prices) }) ∧
    momentum_signal [1, 2, 3, 4, 5] 2 4 =
      .ok { signal := 1, short_ma := 9 / 2, long_ma := 7 / 2 } := by
  refine ⟨?_, ?_, fun hs hsl hlen => momentum_signal_ok prices s l hs hsl hlen, ?_⟩
  · intro h
    unfold momentum_signal
    rw [if_pos h]
  · intro h1 h2
    unfold momentum_signal
    rw [if_neg (not_le.mpr h1), if_pos h2]
  · rw [momentum_signal_ok [1, 2, 3, 4, 5] 2 4 (by decide) (by decide) (by decide)]
    have e1 : last_prices (2 : Int).toNat [1, 2, 3, 4, 5] = [4, 5] := rfl
    have e2 : last_prices (4 : Int).toNat [1, 2, 3, 4, 5] = [2, 3, 4, 5] := rfl
    rw [e1, e2]
    norm_num [arith_mean]

/-- Witness for C7 at the spec's example series and windows. -/
theorem momentum_signal_spec_witness :
    momentum_signal [1, 2, 3, 4, 5] 2 4 = .ok
      { signal :=
          if arith_mean (last_prices 2 [1, 2, 3, 4, 5]) >
              arith_mean (last_prices 4 [1, 2, 3, 4, 5])
          then 1
          else if arith_mean (last_prices 2 [1, 2, 3, 4, 5]) <
              arith_mean (last_prices 4 [1, 2, 3, 4, 5])
          then -1 else 0
        short_ma := arith_mean (last_prices 2 [1, 2, 3, 4, 5])
        long_ma := arith_mean (last_prices 4 [1, 2, 3, 4, 5]) } :=
  (momentum_signal_spec [1, 2, 3, 4, 5] 2 4).2.2.1 (by decide) (by decide) (by decide)

/-- C9: `MockExecutor.execute` returns a report with status `"filled"`, the
full requested quantity, the given price and the fresh timestamp, and
appends exactly one audit line carrying the serialized report fields while
leaving every previously written line unchanged. -/
theorem mock_execute_fills_and_appends (order : OrderRequest) (price now : ℚ)
    (log : List AuditEntry) :
    (mock_execute order price now log).1.status = "filled" ∧
    (mock_execute order price now log).1.filled_quantity = order.quantity ∧
    (mock_execute order price now log).1.average_price = price ∧
    (mock_execute order price now log).1.timestamp = now ∧
    (mock_execute order price now log).1.order = order ∧
    (mock_execute order price now log).2 =
      log ++ [{ symbol := order.symbol, side := order.side, quantity := order.quantity
                average_price := price, status := "filled", timestamp := now
                metadata := order.metadata }] :=
  ⟨rfl, rfl, rfl, rfl, rfl, rfl⟩

/-- C8 counterexample: the output of `normalize_ohlc_rows` is not strictly
ordered by timestamp — two identical well-formed rows normalize to two bars
with equal timestamps. -/
theorem normalize_duplicate_timestamps_not_strict :
    normalize_ohlc_rows parse_len [dup_row, dup_row] =
      .ok [⟨25, 1, 1, 1, 1, 1⟩, ⟨25, 1, 1, 1, 1, 1⟩] ∧
    ¬ List.Chain' (fun a b : NormBar Nat => a.timestamp < b.timestamp)
        [⟨25, 1, 1, 1, 1, 1⟩, ⟨25, 1, 1, 1, 1, 1⟩] := by
  constructor
  · have hloop : normalize_loop parse_len [dup_row, dup_row] =
        .ok [⟨25, 1, 1, 1, 1, 1⟩, ⟨25, 1, 1, 1, 1, 1⟩] := by decide
    unfold normalize_ohlc_rows
    rw [hloop]
    simp only [Except.map]
    congr 1
    apply List.mergeSort_of_sorted
    decide
  · intro hch
    simp [List.chain'_cons] at hch

/-- C8 (amended): on an all-well-formed batch `normalize_ohlc_rows` returns
the per-row normalized bars (timestamps parsed after replacing `Z` with
`+00:00`, numeric fields coerced) sorted ascending — non-strictly — by
timestamp; the output has the input's length, is a permutation of the
normalized input rows, and the sort is stable (every timestamp-sorted
sublist of the input order survives as a sublist of the output); a batch
containing a malformed row fails as a whole with the first offending row
and returns no partial output. -/
theorem normalize_ohlc_rows_spec {τ : Type} [LinearOrder τ] (parse : String → Option τ)
    (rows : List RawRow) :
    ((∀ r ∈ rows, (normalize_row parse r).isSome) →
      normalize_ohlc_rows parse rows =
        .ok ((rows.filterMap (normalize_row parse)).mergeSort bar_le)) ∧
    (∀ out, normalize_ohlc_rows parse rows = .ok out →
      out.length = rows.length ∧
      out.Pairwise (fun a b => a.timestamp ≤ b.timestamp) ∧
      out.Perm (rows.filterMap (normalize_row parse)) ∧
      (∀ c : List (NormBar τ), c.Pairwise (fun a b => a.timestamp ≤ b.timestamp) →
        c.Sublist (rows.filterMap (normalize_row parse)) → c.Sublist out)) ∧
    (∀ pre row post, rows = pre ++ row :: post →
      (∀ r ∈ pre, (normalize_row parse r).isSome) →
      normalize_row parse row = none →
      normalize_ohlc_rows parse rows = .error row) := by
  refine ⟨?_, ?_, ?_⟩
  · intro h
    unfold normalize_ohlc_rows
    rw [normalize_loop_ok_of_all parse rows h]
    rfl
  · intro out h
    unfold normalize_ohlc_rows at h
    cases hloop : normalize_loop parse rows with
    | error e => rw [hloop] at h; simp [Except.map] at h
    | ok l =>
      rw [hloop] at h
      simp only [Except.map, Except.ok.injEq] at h
      obtain ⟨hall, hl⟩ := normalize_loop_ok_inv parse rows l hloop
      subst hl
      subst h
      refine ⟨?_, ?_, ?_, ?_⟩
      · rw [List.length_mergeSort]
        exact length_filterMap_of_all _ _ hall
      · exact (List.sorted_mergeSort bar_le_trans bar_le_total _).imp
          (fun hab => by simpa [bar_le] using hab)
      · exact List.mergeSort_perm _ bar_le
      · intro c hc hsub
        exact List.sublist_mergeSort bar_le_trans bar_le_total
          (hc.imp (fun hab => by simpa [bar_le] using hab)) hsub
  · intro pre row post hrows hpre hrow
    unfold normalize_ohlc_rows
    rw [hrows, normalize_loop_error parse pre row post hpre hrow]
    rfl

/-- Witness for C8 at a concrete one-row batch. -/
theorem normalize_ohlc_rows_spec_witness :
    normalize_ohlc_rows parse_len [dup_row] =
      .ok (([dup_row].filterMap (normalize_row parse_len)).mergeSort bar_le) :=
  (normalize_ohlc_rows_spec parse_len [dup_row]).1 (by decide)

/-- C2 (code evaluation): in the repository's own cache-test scenario, a
first cache-miss call succeeds and issues TWO data GETs (the stray request
of line 72 and the real one of line 80); the second identical call within
the TTL is served from the cache with zero network requests — so the pair
issues two data requests, not the one the claim (and the repository's
`test_scraper_uses_cache`, asserting `len(session.calls) == 1`) requires. -/
theorem cached_pair_issues_two_data_requests :
    test_call1.result = .payload "payload" ∧
    test_call1.data_requests.length = 2 ∧
    test_call2 =
      { result := .payload "payload", state := test_call1.state, data_requests := [],
        robots_requests := [], sleeps := [], rate_limit_wait := 0 } ∧
    test_call1.data_requests.length + test_call2.data_requests.length ≠ 1 := by
  have hhit : read_cache test_cfg.cache_ttl_seconds test_call1.state.cache 0
      (used_cache_key "SPY" "start" "end") = some "payload" := by
    have hc : test_call1.state.cache =
        [(used_cache_key "SPY" "start" "end", "payload", 0)] := rfl
    rw [hc]
    show (if (0 : ℚ) - 0 > test_cfg.cache_ttl_seconds then none else some "payload") =
      some "payload"
    rw [if_neg (by norm_num [test_cfg])]
  have h2 := get_intraday_prices_cache_hit test_cfg test_env test_call1.state 0 0
    "SPY" "start" "end" "payload" hhit
  refine ⟨rfl, rfl, h2, ?_⟩
  rw [show test_call2 = get_intraday_prices test_cfg test_env test_call1.state 0 0
    "SPY" "start" "end" from rfl, h2]
  decide

/-- C3 (code evaluation): the cache file name actually used is the raw
unsanitized f-string of line 60 — for ISO timestamps it contains `:`
verbatim — while the sanitized key computed (and discarded) at line 59
replaces every `:` with `_`. -/
theorem cache_key_not_sanitized :
    colon_call.state.cache.map (fun e => e.1) =
      ["SPY_2024-01-01T09:30:00_2024-01-01T16:00:00.json"] ∧
    ':' ∈ "SPY_2024-01-01T09:30:00_2024-01-01T16:00:00.json".data ∧
    make_cache_key ["SPY", "2024-01-01T09:30:00", "2024-01-01T16:00:00"] =
      "SPY_2024-01-01T09_30_00_2024-01-01T16_00_00.json" ∧
    ':' ∉ "SPY_2024-01-01T09_30_00_2024-01-01T16_00_00.json".data :=
  ⟨by decide, by decide, by decide, by decide⟩

/-- C4: on a cache miss with the robots policy available, if the policy
denies the endpoint path the code checks (`"/" + endpoint.strip("/") +
"/"`), `get_intraday_prices` fails with a `PermissionError` naming that
denied path and attempts zero data GETs: the permission check strictly
precedes any network request for data. -/
theorem robots_denial_blocks_data_fetch (cfg : ScraperConfig) (env : ScraperEnv)
    (st : ScraperState) (wall_now mono_now : ℚ) (symbol start_ end_ : String)
    (hmiss : read_cache cfg.cache_ttl_seconds st.cache wall_now
      (used_cache_key symbol start_ end_) = none)
    (hrobots : st.robots_loaded = true ∨ env.robots_ok = true)
    (hdeny : is_allowed env.can_fetch ("/" ++ pyStripChar '/' cfg.endpoint ++ "/") = false) :
    (get_intraday_prices cfg env st wall_now mono_now symbol start_ end_).result =
      .permissionError
        ("Robots.txt disallows access to " ++ ("/" ++ pyStripChar '/' cfg.endpoint ++ "/")) ∧
    (get_intraday_prices cfg env st wall_now mono_now symbol start_ end_).data_requests
      = [] := by
  obtain ⟨h1, h2, _⟩ := get_intraday_prices_denied cfg env st wall_now mono_now
    symbol start_ end_ hmiss hrobots hdeny
  exact ⟨h1, h2⟩

/-- Witness for C4 at a concrete deny-all policy on an empty cache. -/
theorem robots_denial_blocks_data_fetch_witness :
    (get_intraday_prices test_cfg ⟨fun _ => false, fun _ => .error "down", true⟩ test_st
      0 0 "SPY" "start" "end").result =
      .permissionError ("Robots.txt disallows access to " ++
        ("/" ++ pyStripChar '/' "intraday" ++ "/")) ∧
    (get_intraday_prices test_cfg ⟨fun _ => false, fun _ => .error "down", true⟩ test_st
      0 0 "SPY" "start" "end").data_requests = [] :=
  robots_denial_blocks_data_fetch test_cfg ⟨fun _ => false, fun _ => .error "down", true⟩
    test_st 0 0 "SPY" "start" "end" rfl (Or.inl rfl) (by decide)

/-- C6: on each transient failure the fetcher sleeps
`backoff_factor * 2^(attempt-1)` (attempt counted from 1) and retries, at
most `max_retries` times: success after `k ≤ max_retries` failures makes
`k + 1` attempts with sleeps `backoff * 2^0 .. backoff * 2^(k-1)`;
`max_retries + 1` straight failures end with the fetch failure wrapping the
last underlying error; and a robots denial is never retried — a denied
fetch performs zero sleeps and zero data attempts. -/
theorem retry_backoff_spec (respond : Nat → Except String String) (max_retries : Nat)
    (backoff : ℚ) (idx : Nat) :
    (∀ k payload, k ≤ max_retries →
      (∀ i, i < k → ∃ e, respond (idx + i) = .error e) →
      respond (idx + k) = .ok payload →
      request_with_retries respond max_retries backoff idx =
        (.success payload, idx + k + 1,
          (List.range k).map (fun i => backoff * 2 ^ i))) ∧
    (∀ e_last,
      (∀ i, i < max_retries → ∃ e, respond (idx + i) = .error e) →
      respond (idx + max_retries) = .error e_last →
      request_with_retries respond max_retries backoff idx =
        (.failure e_last, idx + max_retries + 1,
          (List.range max_retries).map (fun i => backoff * 2 ^ i))) ∧
    (∀ (cfg : ScraperConfig) (env : ScraperEnv) (st : ScraperState)
        (wall_now mono_now : ℚ) (symbol start_ end_ : String),
      read_cache cfg.cache_ttl_seconds st.cache wall_now
        (used_cache_key symbol start_ end_) = none →
      (st.robots_loaded = true ∨ env.robots_ok = true) →
      is_allowed env.can_fetch ("/" ++ pyStripChar '/' cfg.endpoint ++ "/") = false →
      (get_intraday_prices cfg env st wall_now mono_now symbol start_ end_).sleeps = [] ∧
      (get_intraday_prices cfg env st wall_now mono_now symbol start_ end_).data_requests
        = []) := by
  refine ⟨?_, ?_, ?_⟩
  · intro k payload hk hfail hok
    unfold request_with_retries
    have h := request_attempt_loop_ok respond max_retries backoff payload k idx 0
      (max_retries + 1) (by omega) (by omega) hfail hok
    simpa using h
  · intro e_last hfail hlast
    unfold request_with_retries
    have h := request_attempt_loop_exhaust respond max_retries backoff e_last max_retries
      idx 0 (max_retries + 1) (by omega) (by omega) hfail hlast
    simpa using h
  · intro cfg env st wall_now mono_now symbol start_ end_ hmiss hrobots hdeny
    obtain ⟨_, h2, h3⟩ := get_intraday_prices_denied cfg env st wall_now mono_now
      symbol start_ end_ hmiss hrobots hdeny
    exact ⟨h3, h2⟩

/-- Witness for C6: with every request failing, `max_retries = 3` and
`backoff_factor = 1/2`, the fetch makes four attempts, sleeps three times
and fails wrapping the last error. -/
theorem retry_backoff_spec_witness :
    request_with_retries (fun _ => .error "boom") 3 (1 / 2) 0 =
      (.failure "boom", 3 + 1, (List.range 3).map (fun i => (1 / 2 : ℚ) * 2 ^ i)) :=
  (retry_backoff_spec (fun _ => .error "boom") 3 (1 / 2) 0).2.1 "boom"
    (fun _ _ => ⟨"boom", rfl⟩) rfl

end VivianRevenge
